import Mathlib

/-!
Verification of the BibTeX generator (`src/bibtex/generator.py`).

The Python code is shallowly embedded: Python `str` becomes Lean `String`
(operating on its `List Char` data where convenient), Python dicts used as
ordered field mappings become `List (String × Option String)` (insertion
order preserved, `none` = Python `None`), fallible code returns
`Except PyErr _`, and the `requests` fetch is an explicit oracle argument
`String → Except String RawRecord` (the error being the
`requests.exceptions.RequestException` message).
-/

/-- Python exceptions that the embedded code can raise. -/
inductive PyErr where
  | indexError
  | attributeError
  | typeError
  | valueError (msg : String)
  | exception (msg : String)
  deriving DecidableEq

/-! ## Python string primitives -/

/-- ASCII whitespace, the character class Python's `str.strip` / `str.split()`
and the regex class `\s` recognise on the inputs of interest. -/
def pyIsSpace (c : Char) : Bool :=
  c == ' ' || c == '\t' || c == '\n' || c == '\r' || c == '\x0b' || c == '\x0c'

/-- Python `s.split(sep)` for a one-character separator: splits at every
occurrence, keeping empty segments (so the result is never empty). -/
def splitChars (sep : Char) : List Char → List (List Char)
  | [] => [[]]
  | c :: cs =>
    if c == sep then [] :: splitChars sep cs
    else
      match splitChars sep cs with
      | [] => [[c]]
      | h :: t => (c :: h) :: t

/-- Python `s.strip()`: remove leading and trailing whitespace. -/
def pyStrip (cs : List Char) : List Char :=
  ((cs.dropWhile pyIsSpace).reverse.dropWhile pyIsSpace).reverse

/-- Helper for `pySplitWs`: accumulate the current word (reversed). -/
def pySplitWsAux : List Char → List Char → List (List Char)
  | [], acc => if acc.isEmpty then [] else [acc.reverse]
  | c :: cs, acc =>
    if pyIsSpace c then
      if acc.isEmpty then pySplitWsAux cs [] else acc.reverse :: pySplitWsAux cs []
    else pySplitWsAux cs (c :: acc)

/-- Python `s.split()` with no argument: split on whitespace runs,
discarding empty segments. -/
def pySplitWs (cs : List Char) : List (List Char) := pySplitWsAux cs []

/-- Python `sep.join(l)`. -/
def pyJoinStr (sep : String) : List String → String
  | [] => ""
  | x :: xs => xs.foldl (fun acc y => acc ++ sep ++ y) x

/-- Python `l[0]` on a list: `IndexError` when empty. -/
def pyHead {α : Type} : List α → Except PyErr α
  | [] => .error .indexError
  | x :: _ => .ok x

/-- Python `l[-1]` on a list: `IndexError` when empty. -/
def pyLast {α : Type} : List α → Except PyErr α
  | [] => .error .indexError
  | [x] => .ok x
  | _ :: x :: xs => pyLast (x :: xs)

/-- Python `s.rstrip(",\n")`: drop trailing characters belonging to the
set `\x7b ',', '\n' \x7d` (all of them, not just one occurrence). -/
def pyRstripCN (cs : List Char) : List Char :=
  (cs.reverse.dropWhile (fun c => c == ',' || c == '\n')).reverse

/-- Python `s.startswith(pre)` (also used to state entry-shape facts). -/
def strStarts (pre s : String) : Bool := pre.data.isPrefixOf s.data

/-! ## Regex cascade of `extract_doi_from_url`

Each of the three patterns is deterministic once anchored at a start
position: every greedy `+` is over a character class excluded from the
character that must follow it, so backtracking can never produce a
different match and the captured pieces are exactly maximal
`takeWhile` runs.  `re.search` semantics (leftmost start position wins)
is `searchAt`, which tries every suffix left to right. -/

/-- Character class `[^/\s]`. -/
def notSlashSpace (c : Char) : Bool := !(c == '/' || pyIsSpace c)

/-- Match a literal string at the start, returning the remainder. -/
def dropLit : List Char → List Char → Option (List Char)
  | [], cs => some cs
  | _ :: _, [] => none
  | l :: ls, c :: cs => if c == l then dropLit ls cs else none

/-- The capture group `([^/\s]+/[^/\s]+)` anchored at the start of `cs`:
a maximal nonempty `[^/\s]` run, a literal `/`, and a second maximal
nonempty run.  (Backtracking cannot produce anything else: a shorter first run would
have to be followed by `/`, which the class excludes.) -/
def matchGroup12 (cs : List Char) : Option (List Char) :=
  if cs.takeWhile notSlashSpace = [] then none
  else
    match cs.dropWhile notSlashSpace with
    | [] => none
    | c :: rest =>
      if c = '/' then
        if rest.takeWhile notSlashSpace = [] then none
        else some (cs.takeWhile notSlashSpace ++ '/' :: rest.takeWhile notSlashSpace)
      else none

/-- A literal marker followed by the DOI capture group, anchored at the
start: covers the patterns `doi\.org/([^/\s]+/[^/\s]+)` and
`doi:([^/\s]+/[^/\s]+)`. -/
def matchAfterLit (lit : List Char) (cs : List Char) : Option (List Char) :=
  match dropLit lit cs with
  | none => none
  | some rest => matchGroup12 rest

/-- Pattern `doi\.org/([^/\s]+/[^/\s]+)` anchored at the start. -/
def matchP1At (cs : List Char) : Option (List Char) :=
  matchAfterLit "doi.org/".data cs

/-- Pattern `doi:([^/\s]+/[^/\s]+)` anchored at the start. -/
def matchP2At (cs : List Char) : Option (List Char) :=
  matchAfterLit "doi:".data cs

/-- Pattern `([0-9]+\.[0-9]+/[^/\s]+)` anchored at the start: maximal
nonempty digit runs around the literal `.`, then `/`, then a maximal
nonempty `[^/\s]` run (again forced, since `.` and `/` are not digits). -/
def matchP3At (cs : List Char) : Option (List Char) :=
  if cs.takeWhile Char.isDigit = [] then none
  else
    match cs.dropWhile Char.isDigit with
    | [] => none
    | c1 :: rest1 =>
      if c1 = '.' then
        if rest1.takeWhile Char.isDigit = [] then none
        else
          match rest1.dropWhile Char.isDigit with
          | [] => none
          | c2 :: rest2 =>
            if c2 = '/' then
              if rest2.takeWhile notSlashSpace = [] then none
              else some (cs.takeWhile Char.isDigit ++ '.' ::
                rest1.takeWhile Char.isDigit ++ '/' :: rest2.takeWhile notSlashSpace)
            else none
      else none

/-- `re.search`: try the anchored matcher at every start position, leftmost
first. -/
def searchAt (m : List Char → Option (List Char)) : List Char → Option (List Char)
  | [] => m []
  | c :: rest =>
    match m (c :: rest) with
    | some r => some r
    | none => searchAt m rest

/-- The `doi_patterns` list of `extract_doi_from_url`, in source order. -/
def doi_patterns : List (List Char → Option (List Char)) :=
  [matchP1At, matchP2At, matchP3At]

/-- The `for pattern in doi_patterns` loop: first pattern with a match wins. -/
def tryPats : List (List Char → Option (List Char)) → List Char → Option (List Char)
  | [], _ => none
  | p :: ps, cs =>
    match searchAt p cs with
    | some m => some m
    | none => tryPats ps cs

/-- `IEEEBibTeX.extract_doi_from_url`. -/
def extract_doi_from_url (url : String) : Option String :=
  (tryPats doi_patterns url.data).map String.mk

example : extract_doi_from_url "https://doi.org/10.1234/example.123" = some "10.1234/example.123" := by
  rfl

example : extract_doi_from_url "https://example.com/article/doi:10.1234/example.123" = some "10.1234/example.123" := by
  rfl

example : extract_doi_from_url "https://example.com/10.1234/example.123" = some "10.1234/example.123" := by
  rfl

example : extract_doi_from_url "https://invalid-url.com" = none := by rfl

/-! ## Serializer (`_create_entry`) and manual construction paths -/

/-- `IEEEBibTeX._format_authors`: split the comma-separated author string,
strip each name, join with " and ". -/
def _format_authors (authors : String) : String :=
  pyJoinStr " and " ((splitChars ',' authors.data).map (fun cs => String.mk (pyStrip cs)))

/-- One emitted field line `  <name> = \x7b<value>\x7d,\n`. -/
def entryLine (k v : String) : String :=
  "  " ++ k ++ " = \x7b" ++ v ++ "\x7d,\n"

/-- Python truthiness of a field value: `None` and `""` are falsy. -/
def truthy : Option String → Bool
  | none => false
  | some v => !v.data.isEmpty

/-- The loop body of `_create_entry`: `if value: entry += "  key = ..."`. -/
def stepField (acc : String) (kv : String × Option String) : String :=
  match kv.2 with
  | some v => if v.data.isEmpty then acc else acc ++ entryLine kv.1 v
  | none => acc

/-- The text a single field contributes ("" when skipped); vocabulary for
reasoning about the `stepField` loop. -/
def fieldText (kv : String × Option String) : String :=
  match kv.2 with
  | some v => if v.data.isEmpty then "" else entryLine kv.1 v
  | none => ""

/-- Concatenation of the emitted field lines, in mapping order. -/
def bodyT : List (String × Option String) → String
  | [] => ""
  | kv :: rest => fieldText kv ++ bodyT rest

/-- `IEEEBibTeX._create_entry`: header, one line per truthy field in mapping
order, then `rstrip(",\n")` and the closing brace. -/
def _create_entry (entry_type citation_key : String)
    (fields : List (String × Option String)) : String :=
  String.mk (pyRstripCN
    (fields.foldl stepField ("@" ++ entry_type ++ "\x7b" ++ citation_key ++ ",\n")).data)
  ++ "\n\x7d"

/-- `IEEEBibTeX.create_article`: field mapping in source insertion order. -/
def create_article (citation_key title authors journal year : String)
    (volume number pages doi : Option String) : String :=
  _create_entry "article" citation_key
    [("author", some (_format_authors authors)),
     ("title", some title),
     ("journal", some journal),
     ("year", some year),
     ("volume", volume),
     ("number", number),
     ("pages", pages),
     ("doi", doi)]

/-- `IEEEBibTeX.create_inproceeding`: note the entry-type name is the
literal `"inproceeding"` in the source. -/
def create_inproceeding (citation_key title authors booktitle year : String)
    (pages location doi : Option String) : String :=
  _create_entry "inproceeding" citation_key
    [("author", some (_format_authors authors)),
     ("title", some title),
     ("booktitle", some booktitle),
     ("year", some year),
     ("pages", pages),
     ("address", location),
     ("doi", doi)]

/-! ## CrossRef data model and mapper (`fetch_from_doi`, pure part) -/

/-- One element of the raw record's `author` list. -/
structure RawAuthor where
  given : Option String
  family : Option String

/-- The `published-print` sub-object; `date_parts` is its `date-parts` key,
with `Option Int` entries so JSON nulls are representable. -/
structure PubPrint where
  date_parts : Option (List (List (Option Int)))

/-- The CrossRef `message` document, with exactly the keys the code reads;
`none` means the key is absent. -/
structure RawRecord where
  title : Option (List String)
  author : Option (List RawAuthor)
  published_print : Option PubPrint
  type_ : Option String
  container_title : Option (List String)
  volume : Option String
  issue : Option String
  page : Option String

/-- Python `str(...)` applied to the year cell: `str(None)` is the string
`"None"`. -/
def pyStrOptInt : Option Int → String
  | none => "None"
  | some n => toString n

/-- The `publication_info` dict built by `fetch_from_doi`. -/
structure PubInfo where
  title : Option String
  authors : String
  year : String
  doi : String
  type_ : Option String
  journal : Option String
  volume : Option String
  number : Option String
  pages : Option String

/-- The pure mapping part of `fetch_from_doi` (lines 61-78): build
`publication_info` from the parsed CrossRef message.  `data.get('title',
[None])[0]` raises `IndexError` on an empty title list; so does the
`[0][0]` indexing under `date-parts`. -/
def map_crossref (data : RawRecord) (doi : String) : Except PyErr PubInfo :=
  match (match data.title with
         | none => Except.ok (none : Option String)
         | some [] => Except.error PyErr.indexError
         | some (t :: _) => Except.ok (some t)) with
  | .error e => .error e
  | .ok titleVal =>
    let authorsVal := pyJoinStr ", "
      ((data.author.getD []).map (fun a => (a.given.getD "") ++ " " ++ (a.family.getD "")))
    let dps : List (List (Option Int)) :=
      match data.published_print with
      | none => [[none]]
      | some pp => pp.date_parts.getD [[none]]
    match (match dps with
           | [] => Except.error PyErr.indexError
           | first :: _ =>
             match first with
             | [] => Except.error PyErr.indexError
             | y :: _ => Except.ok (pyStrOptInt y)) with
    | .error e => .error e
    | .ok yearVal =>
      .ok { title := titleVal
            authors := authorsVal
            year := yearVal
            doi := doi
            type_ := data.type_
            journal := match data.container_title with
                       | some (x :: _) => some x
                       | _ => none
            volume := match data.volume with
                      | some v => if v.data.isEmpty then none else some v
                      | none => none
            number := match data.issue with
                      | some v => if v.data.isEmpty then none else some v
                      | none => none
            pages := match data.page with
                     | some v => if v.data.isEmpty then none else some v
                     | none => none }

/-- `fetch_from_doi` with the HTTP transport as an oracle: a
`RequestException` from the transport is wrapped into a generic
`Exception` with the cause's message. -/
def fetch_from_doi (fetchF : String → Except String RawRecord) (doi : String) :
    Except PyErr PubInfo :=
  match fetchF doi with
  | .error msg => .error (.exception ("Error fetching DOI information: " ++ msg))
  | .ok data => map_crossref data doi

/-! ## Entry builder and the `generate_from_identifier` pipeline -/

/-- `type_mapping.get(pub_info['type'], 'article')`: the dispatch dict with
its `'article'` default. -/
def type_mapping_get (t : Option String) : String :=
  if t = some "journal-article" then "article"
  else if t = some "proceedings-article" then "inproceedings"
  else "article"

/-- The `publication_info` dict in its insertion order, as handed to the
(unreachable) final `_create_entry` fallback of `generate_from_identifier`. -/
def pubInfoFields (p : PubInfo) : List (String × Option String) :=
  [("title", p.title),
   ("authors", some p.authors),
   ("year", some p.year),
   ("doi", some p.doi),
   ("type", p.type_)]
  ++ (match p.journal with | some j => [("journal", some j)] | none => [])
  ++ (match p.volume with | some v => [("volume", some v)] | none => [])
  ++ (match p.number with | some v => [("number", some v)] | none => [])
  ++ (match p.pages with | some v => [("pages", some v)] | none => [])

/-- Lines 98-136 of `generate_from_identifier`: citation-key derivation and
entry dispatch.  The key is
`pub_info['authors'].split(',')[0].split()[-1].lower()` +
`pub_info['year']` + `pub_info['title'].split()[0].lower()`; an empty
author token raises `IndexError`, a `None` title raises `AttributeError`
(`None.split()`), an empty title raises `IndexError`.  In the
`'inproceedings'` branch the source evaluates `pub_info.get['pages']`,
which subscripts the bound method object and raises `TypeError` before
`create_inproceeding` is ever called. -/
def build_entry (pub : PubInfo) : Except PyErr String :=
  match pyHead (splitChars ',' pub.authors.data) with
  | .error e => .error e
  | .ok a0 =>
    match pyLast (pySplitWs a0) with
    | .error e => .error e
    | .ok fam =>
      match (match pub.title with
             | none => Except.error PyErr.attributeError
             | some t => Except.ok t) with
      | .error e => .error e
      | .ok t =>
        match pyHead (pySplitWs t.data) with
        | .error e => .error e
        | .ok w0 =>
          let citation_key :=
            String.mk (fam.map Char.toLower) ++ pub.year ++ String.mk (w0.map Char.toLower)
          let entry_type := type_mapping_get pub.type_
          if entry_type = "article" then
            .ok (create_article citation_key t pub.authors (pub.journal.getD "")
                  pub.year pub.volume pub.number pub.pages (some pub.doi))
          else if entry_type = "inproceedings" then
            .error .typeError
          else
            .ok (_create_entry entry_type citation_key (pubInfoFields pub))

/-- Lines 88-93 of `generate_from_identifier`: URL detection
(`identifier.startswith('http')`) and DOI extraction, with the
`ValueError` when no DOI can be extracted. -/
def resolve_identifier (identifier : String) : Except PyErr String :=
  if strStarts "http" identifier then
    match extract_doi_from_url identifier with
    | some doi => .ok doi
    | none => .error (.valueError "Could not extract DOI from URL")
  else
    .ok identifier

/-- The pipeline from a resolved DOI onward: fetch, map, build. -/
def generate_with_doi (fetchF : String → Except String RawRecord) (doi : String) :
    Except PyErr String :=
  match fetch_from_doi fetchF doi with
  | .error e => .error e
  | .ok pub => build_entry pub

/-- `IEEEBibTeX.generate_from_identifier`. -/
def generate_from_identifier (fetchF : String → Except String RawRecord)
    (identifier : String) : Except PyErr String :=
  match resolve_identifier identifier with
  | .error e => .error e
  | .ok doi => generate_with_doi fetchF doi

/-! ## Definitions following the specification's words

These two are rendered from the spec text (not from the source), solely to
be compared against the translated code. -/

/-- Modelled from the spec: the serializer output shape of section 4.4,
`@<entryTypeName>\x7b<citationKey>,\n` followed by one line per truthy
field in mapping order, with the trailing comma+newline of the last line
stripped (exactly two characters) and replaced by `\n\x7d`. -/
def render_spec (t k : String) (fields : List (String × Option String)) : String :=
  String.mk
    (("@" ++ t ++ "\x7b" ++ k ++ ",\n" ++ bodyT fields).data.dropLast.dropLast)
  ++ "\n\x7d"

/-- Modelled from the spec: an identifier that "begins with an http(s)
scheme", read as carrying the scheme prefix `http://` or `https://`. -/
def begins_http_scheme (s : String) : Bool :=
  strStarts "http://" s || strStarts "https://" s

/-! ## Concrete records used as inputs -/

/-- A record whose type is neither journal-article nor proceedings-article. -/
def rBook : RawRecord :=
  { title := some ["Test Article"]
    author := some [⟨some "John", some "Doe"⟩]
    published_print := some ⟨some [[some 2024]]⟩
    type_ := some "book"
    container_title := some ["Test Journal"]
    volume := none, issue := none, page := none }

/-- A proceedings-article record. -/
def rProc : RawRecord :=
  { rBook with type_ := some "proceedings-article" }

/-- A journal-article record with no `published-print` date. -/
def rNoDate : RawRecord :=
  { rBook with type_ := some "journal-article", published_print := none }

/-- A journal-article record with no authors. -/
def rNoAuth : RawRecord :=
  { rBook with type_ := some "journal-article", author := none }

/-- A fetch oracle constantly returning `rBook`. -/
def fetchBook : String → Except String RawRecord := fun _ => .ok rBook

/-- A fetch oracle constantly returning `rProc`. -/
def fetchProc : String → Except String RawRecord := fun _ => .ok rProc

/-- A fetch oracle constantly returning `rNoDate`. -/
def fetchNoDate : String → Except String RawRecord := fun _ => .ok rNoDate

/-- A fetch oracle constantly returning `rNoAuth`. -/
def fetchNoAuth : String → Except String RawRecord := fun _ => .ok rNoAuth

/-- A fetch oracle that always fails with a transport error. -/
def fetchFail : String → Except String RawRecord := fun _ => .error "API Error"

/-! ## Basic string lemmas -/

theorem str_data_append (a b : String) : (a ++ b).data = a.data ++ b.data := rfl

theorem str_append_empty (s : String) : s ++ "" = s :=
  String.ext (by rw [str_data_append]; exact List.append_nil _)

theorem str_append_assoc (a b c : String) : a ++ b ++ c = a ++ (b ++ c) :=
  String.ext (by simp only [str_data_append, List.append_assoc])

/-! ## Serializer lemmas -/

theorem stepField_eq (acc : String) (kv : String × Option String) :
    stepField acc kv = acc ++ fieldText kv := by
  unfold stepField fieldText
  rcases kv with ⟨k, vo⟩
  cases vo with
  | none => exact (str_append_empty acc).symm
  | some v =>
    by_cases h : v.data.isEmpty
    · simp only [h, if_true]
      exact (str_append_empty acc).symm
    · have h' : v.data.isEmpty = false := by simpa using h
      simp [h']

theorem foldl_stepField : ∀ (fs : List (String × Option String)) (a : String),
    fs.foldl stepField a = a ++ bodyT fs := by
  intro fs
  induction fs with
  | nil => intro a; exact (str_append_empty a).symm
  | cons kv rest ih =>
    intro a
    show (rest.foldl stepField (stepField a kv)) = a ++ bodyT (kv :: rest)
    rw [ih, stepField_eq, bodyT, str_append_assoc]

theorem fieldText_falsy {kv : String × Option String} (h : truthy kv.2 = false) :
    fieldText kv = "" := by
  unfold fieldText
  rcases kv with ⟨k, vo⟩
  cases vo with
  | none => rfl
  | some v =>
    simp only [truthy, Bool.not_eq_false'] at h
    simp [h]

theorem bodyT_all_falsy : ∀ {fs : List (String × Option String)},
    (∀ kv ∈ fs, truthy kv.2 = false) → bodyT fs = "" := by
  intro fs
  induction fs with
  | nil => intro _; rfl
  | cons kv rest ih =>
    intro h
    show fieldText kv ++ bodyT rest = ""
    rw [fieldText_falsy (h kv (List.mem_cons_self _ _)),
        ih (fun x hx => h x (List.mem_cons_of_mem _ hx))]
    rfl

theorem entryLine_data (k v : String) :
    (entryLine k v).data =
      (' ' :: ' ' :: k.data ++ " = \x7b".data ++ v.data) ++ ['\x7d', ',', '\n'] := by
  unfold entryLine
  simp only [str_data_append, List.append_assoc]
  rfl

theorem bodyT_cases : ∀ (fs : List (String × Option String)),
    bodyT fs = "" ∨ ∃ zs, (bodyT fs).data = zs ++ ['\x7d', ',', '\n'] := by
  intro fs
  induction fs with
  | nil => exact Or.inl rfl
  | cons kv rest ih =>
    show bodyT (kv :: rest) = "" ∨ _
    rw [bodyT]
    rcases kv with ⟨k, vo⟩
    have hft : fieldText (k, vo) = "" ∨
        ∃ ws, (fieldText (k, vo)).data = ws ++ ['\x7d', ',', '\n'] := by
      unfold fieldText
      cases vo with
      | none => exact Or.inl rfl
      | some v =>
        by_cases h : v.data.isEmpty
        · simp [h]
        · simp only [h, if_false]
          exact Or.inr ⟨_, entryLine_data k v⟩
    rcases hft with hft | ⟨ws, hws⟩
    · rw [hft]
      show bodyT rest = "" ∨ ∃ zs, (bodyT rest).data = zs ++ _
      exact ih
    · rcases ih with hb | ⟨zs, hzs⟩
      · rw [hb]
        right
        refine ⟨ws, ?_⟩
        rw [str_append_empty, hws]
      · right
        refine ⟨ws ++ ['\x7d', ',', '\n'] ++ zs, ?_⟩
        rw [str_data_append, hws, hzs]
        simp [List.append_assoc]

theorem bodyT_ne_empty : ∀ {fs : List (String × Option String)},
    (∃ kv ∈ fs, truthy kv.2 = true) → bodyT fs ≠ "" := by
  intro fs
  induction fs with
  | nil => rintro ⟨kv, h, _⟩; exact absurd h (List.not_mem_nil _)
  | cons kv rest ih =>
    rintro ⟨kv0, hmem, ht⟩
    rcases List.mem_cons.mp hmem with rfl | hmem'
    · show fieldText kv0 ++ bodyT rest ≠ ""
      rcases kv0 with ⟨k, vo⟩
      cases vo with
      | none => exact absurd ht (by simp [truthy])
      | some v =>
        have hv : v.data.isEmpty = false := by simpa [truthy] using ht
        intro heq
        have hdata : (fieldText (k, some v) ++ bodyT rest).data = [] :=
          congrArg String.data heq
        rw [str_data_append] at hdata
        rcases List.append_eq_nil.mp hdata with ⟨h1, _⟩
        rw [show fieldText (k, some v) = entryLine k v from by simp [fieldText, hv],
            entryLine_data] at h1
        exact absurd h1 (by simp)
    · intro heq
      have : (fieldText kv ++ bodyT rest).data = [] := by
        have := congrArg String.data heq
        exact this
      rw [str_data_append] at this
      rcases List.append_eq_nil.mp this with ⟨_, h2⟩
      exact ih ⟨kv0, hmem', ht⟩ (String.ext h2)

/-! ## rstrip lemmas -/

theorem dropLast2_append (ws : List Char) :
    (ws ++ [',', '\n']).dropLast.dropLast = ws := by
  have h : ws ++ [',', '\n'] = (ws ++ [',']) ++ ['\n'] := by
    simp [List.append_assoc]
  rw [h, List.dropLast_concat, List.dropLast_concat]

theorem rstrip_stops (ws : List Char) (c : Char) (hl : ws.getLast? = some c)
    (hc : (c == ',' || c == '\n') = false) :
    pyRstripCN (ws ++ [',', '\n']) = ws := by
  obtain ⟨t, hrev⟩ : ∃ t, ws.reverse = c :: t := by
    cases hr : ws.reverse with
    | nil =>
      rw [← List.head?_reverse, hr] at hl
      exact absurd hl (by simp)
    | cons c' t =>
      rw [← List.head?_reverse, hr] at hl
      injection hl with hcc
      exact ⟨t, by rw [hcc]⟩
  unfold pyRstripCN
  rw [List.reverse_append]
  rw [show (([',', '\n'] : List Char).reverse ++ ws.reverse) =
    '\n' :: ',' :: ws.reverse from rfl]
  rw [show List.dropWhile (fun c => c == ',' || c == '\n') ('\n' :: ',' :: ws.reverse) =
    List.dropWhile (fun c => c == ',' || c == '\n') ws.reverse from rfl]
  rw [hrev, List.dropWhile_cons, hc]
  simp only [Bool.false_eq_true, if_false]
  rw [← hrev, List.reverse_reverse]

theorem rstrip_eq_dropLast2 (ws : List Char) (c : Char) (hl : ws.getLast? = some c)
    (hc : (c == ',' || c == '\n') = false) :
    pyRstripCN (ws ++ [',', '\n']) = (ws ++ [',', '\n']).dropLast.dropLast := by
  rw [rstrip_stops ws c hl hc, dropLast2_append]

/-- Heart of the serializer claims: under either guard, `rstrip(",\n")`
agrees with stripping exactly the final comma+newline of the body. -/
theorem create_entry_eq_spec (t k : String) (fields : List (String × Option String))
    (h : (∃ kv ∈ fields, truthy kv.2 = true) ∨
         (∀ c, k.data.getLast? = some c → (c == ',' || c == '\n') = false)) :
    _create_entry t k fields = render_spec t k fields := by
  unfold _create_entry render_spec
  rw [foldl_stepField]
  have hD : ∃ (ws : List Char) (c : Char),
      ("@" ++ t ++ "\x7b" ++ k ++ ",\n" ++ bodyT fields).data = ws ++ [',', '\n'] ∧
      ws.getLast? = some c ∧ (c == ',' || c == '\n') = false := by
    have hheader : ("@" ++ t ++ "\x7b" ++ k ++ ",\n").data =
        ('@' :: t.data ++ '\x7b' :: k.data) ++ [',', '\n'] := by
      simp [str_data_append, List.append_assoc]
    rcases bodyT_cases fields with hb | ⟨zs, hzs⟩
    · rcases h with hex | hk
      · exact absurd hb (bodyT_ne_empty hex)
      · have hlastc : ∃ c, ('@' :: t.data ++ '\x7b' :: k.data).getLast? = some c ∧
            (c == ',' || c == '\n') = false := by
          cases hk0 : k.data with
          | nil =>
            exact ⟨'\x7b', List.getLast?_concat ('@' :: t.data), by decide⟩
          | cons c0 cs0 =>
            obtain ⟨c, hc⟩ : ∃ c, (c0 :: cs0).getLast? = some c := by
              cases hgl : (c0 :: cs0).getLast? with
              | none => exact absurd hgl (by simp)
              | some c => exact ⟨c, rfl⟩
            refine ⟨c, ?_, hk c (by rw [hk0]; exact hc)⟩
            rw [show ('@' :: t.data ++ '\x7b' :: c0 :: cs0 : List Char) =
              ('@' :: t.data ++ ['\x7b']) ++ (c0 :: cs0) from by simp,
              List.getLast?_append, hc]
            rfl
        obtain ⟨c, hcl, hcg⟩ := hlastc
        refine ⟨'@' :: t.data ++ '\x7b' :: k.data, c, ?_, hcl, hcg⟩
        rw [str_data_append, hb, hheader]
        simp
    · refine ⟨("@" ++ t ++ "\x7b" ++ k ++ ",\n").data ++ (zs ++ ['\x7d']), '\x7d', ?_, ?_, by decide⟩
      · rw [str_data_append, hzs]
        simp [List.append_assoc]
      · rw [show (("@" ++ t ++ "\x7b" ++ k ++ ",\n").data ++ (zs ++ ['\x7d']) : List Char) =
          (("@" ++ t ++ "\x7b" ++ k ++ ",\n").data ++ zs) ++ ['\x7d'] from by simp]
        exact List.getLast?_concat _
  obtain ⟨ws, c, hD, hlast, hguard⟩ := hD
  rw [hD, rstrip_eq_dropLast2 ws c hlast hguard]

/-! ## Join/split lemmas for the author formatter -/

/-- Character-level separator join, vocabulary for `pyJoinStr`. -/
def joinCL (sep : List Char) : List (List Char) → List Char
  | [] => []
  | [x] => x
  | x :: y :: rest => x ++ sep ++ joinCL sep (y :: rest)

theorem joinCL_merge (s a y : List Char) (ms : List (List Char)) :
    joinCL s ((a ++ s ++ y) :: ms) = a ++ s ++ joinCL s (y :: ms) := by
  cases ms with
  | nil => rfl
  | cons m ms' => simp [joinCL, List.append_assoc]

theorem foldl_join_data (sep : String) : ∀ (ys : List String) (a : String),
    (ys.foldl (fun acc y => acc ++ sep ++ y) a).data =
      joinCL sep.data (a.data :: ys.map String.data) := by
  intro ys
  induction ys with
  | nil => intro a; rfl
  | cons y ys ih =>
    intro a
    show (ys.foldl (fun acc y => acc ++ sep ++ y) (a ++ sep ++ y)).data = _
    rw [ih (a ++ sep ++ y)]
    rw [show (a ++ sep ++ y).data = a.data ++ sep.data ++ y.data from by
      simp [str_data_append]]
    exact joinCL_merge sep.data a.data y.data (ys.map String.data)

theorem pyJoinStr_data (sep : String) (l : List String) (h : l ≠ []) :
    (pyJoinStr sep l).data = joinCL sep.data (l.map String.data) := by
  cases l with
  | nil => exact absurd rfl h
  | cons x xs => exact foldl_join_data sep xs x

theorem splitChars_no_sep (sep : Char) : ∀ (a : List Char), sep ∉ a →
    splitChars sep a = [a] := by
  intro a
  induction a with
  | nil => intro _; rfl
  | cons c cs ih =>
    intro h
    have hc : (c == sep) = false := by
      simp only [beq_eq_false_iff_ne, ne_eq]
      exact fun e => h (e ▸ List.mem_cons_self c cs)
    unfold splitChars
    rw [hc]
    simp only [Bool.false_eq_true, if_false]
    rw [ih (fun hm => h (List.mem_cons_of_mem c hm))]

theorem splitChars_append_sep (sep : Char) : ∀ (a t : List Char), sep ∉ a →
    splitChars sep (a ++ sep :: t) = a :: splitChars sep t := by
  intro a
  induction a with
  | nil =>
    intro t _
    show splitChars sep (sep :: t) = [] :: splitChars sep t
    rw [splitChars]
    simp
  | cons c cs ih =>
    intro t h
    have hc : (c == sep) = false := by
      simp only [beq_eq_false_iff_ne, ne_eq]
      exact fun e => h (e ▸ List.mem_cons_self c cs)
    show splitChars sep (c :: (cs ++ sep :: t)) = (c :: cs) :: splitChars sep t
    rw [splitChars, hc]
    simp only [Bool.false_eq_true, if_false]
    rw [ih t (fun hm => h (List.mem_cons_of_mem c hm))]

theorem splitChars_joinCL (sep : Char) : ∀ (ls : List (List Char)), ls ≠ [] →
    (∀ l ∈ ls, sep ∉ l) → splitChars sep (joinCL [sep] ls) = ls := by
  intro ls
  induction ls with
  | nil => intro h; exact absurd rfl h
  | cons x ys ih =>
    cases ys with
    | nil =>
      intro _ h
      exact splitChars_no_sep sep x (h x (List.mem_cons_self _ _))
    | cons y ys' =>
      intro _ h
      rw [show joinCL [sep] (x :: y :: ys') = x ++ sep :: joinCL [sep] (y :: ys') from by
        show x ++ [sep] ++ joinCL [sep] (y :: ys') = _
        simp [List.append_assoc]]
      rw [splitChars_append_sep sep x _ (h x (List.mem_cons_self _ _)),
        ih (by simp) (fun l hl => h l (List.mem_cons_of_mem x hl))]

/-! ## Regex matcher lemmas -/

theorem notSlashSpace_spec {c : Char} (h : notSlashSpace c = true) :
    c ≠ '/' ∧ pyIsSpace c = false := by
  simp only [notSlashSpace, Bool.not_eq_eq_eq_not, Bool.not_true, Bool.or_eq_false_iff,
    beq_eq_false_iff_ne, ne_eq] at h
  exact ⟨h.1, h.2⟩

theorem isDigit_props {c : Char} (h : c.isDigit = true) :
    c ≠ '/' ∧ pyIsSpace c = false := by
  constructor
  · intro hc
    rw [hc] at h
    exact absurd h (by decide)
  · cases hs : pyIsSpace c
    · rfl
    · exfalso
      have hor : c = ' ' ∨ c = '\t' ∨ c = '\n' ∨ c = '\x0d' ∨ c = '\x0b' ∨ c = '\x0c' := by
        simpa [pyIsSpace, or_assoc] using hs
      rcases hor with h1 | h1 | h1 | h1 | h1 | h1 <;>
        (rw [h1] at h; exact absurd h (by decide))

theorem dropLit_eq : ∀ (l cs rest : List Char), dropLit l cs = some rest →
    cs = l ++ rest := by
  intro l
  induction l with
  | nil =>
    intro cs rest h
    simp only [dropLit, Option.some.injEq] at h
    rw [h]
    rfl
  | cons x xs ih =>
    intro cs rest h
    cases cs with
    | nil => exact absurd h (by simp [dropLit])
    | cons c cs' =>
      rw [dropLit] at h
      by_cases hc : (c == x) = true
      · rw [hc] at h
        simp only [if_true] at h
        rw [List.cons_append, ← ih cs' rest h, eq_of_beq hc]
      · rw [Bool.not_eq_true] at hc
        rw [hc] at h
        exact absurd h (by simp)

theorem matchGroup12_spec {cs d : List Char} (h : matchGroup12 cs = some d) :
    (∃ rest, cs = d ++ rest) ∧ (∀ c ∈ d, pyIsSpace c = false) ∧
    d.count '/' = 1 := by
  unfold matchGroup12 at h
  by_cases ha : cs.takeWhile notSlashSpace = []
  · rw [if_pos ha] at h
    exact absurd h (by simp)
  · rw [if_neg ha] at h
    cases hdrop : cs.dropWhile notSlashSpace with
    | nil => rw [hdrop] at h; exact absurd h (by simp)
    | cons c0 rest =>
      rw [hdrop] at h
      replace h : (if c0 = '/' then
          if rest.takeWhile notSlashSpace = [] then none
          else some (cs.takeWhile notSlashSpace ++ '/' :: rest.takeWhile notSlashSpace)
        else none) = some d := h
      by_cases hc0 : c0 = '/'
      · rw [if_pos hc0] at h
        subst hc0
        by_cases hb : rest.takeWhile notSlashSpace = []
        · rw [if_pos hb] at h
          exact absurd h (by simp)
        · rw [if_neg hb] at h
          injection h with hd
          subst hd
          refine ⟨⟨rest.dropWhile notSlashSpace, ?_⟩, ?_, ?_⟩
          · conv_lhs => rw [← List.takeWhile_append_dropWhile (p := notSlashSpace) (l := cs)]
            rw [hdrop]
            conv_lhs => rw [show rest = rest.takeWhile notSlashSpace ++
              rest.dropWhile notSlashSpace from
              (List.takeWhile_append_dropWhile _ _).symm]
            simp [List.append_assoc]
          · intro c hc
            rcases List.mem_append.mp hc with hc1 | hc2
            · exact (notSlashSpace_spec (List.mem_takeWhile_imp hc1)).2
            · rcases List.mem_cons.mp hc2 with rfl | hc3
              · rfl
              · exact (notSlashSpace_spec (List.mem_takeWhile_imp hc3)).2
          · have hca : (cs.takeWhile notSlashSpace).count '/' = 0 :=
              List.count_eq_zero.mpr
                (fun hm => (notSlashSpace_spec (List.mem_takeWhile_imp hm)).1 rfl)
            have hcb : (rest.takeWhile notSlashSpace).count '/' = 0 :=
              List.count_eq_zero.mpr
                (fun hm => (notSlashSpace_spec (List.mem_takeWhile_imp hm)).1 rfl)
            rw [List.count_append, List.count_cons, hca, hcb]
            decide
      · rw [if_neg hc0] at h
        exact absurd h (by simp)

theorem matchAfterLit_spec {lit cs d : List Char} (h : matchAfterLit lit cs = some d) :
    (∃ pre rest, cs = pre ++ d ++ rest) ∧ (∀ c ∈ d, pyIsSpace c = false) ∧
    d.count '/' = 1 := by
  unfold matchAfterLit at h
  cases hdl : dropLit lit cs with
  | none => rw [hdl] at h; exact absurd h (by simp)
  | some rest =>
    rw [hdl] at h
    obtain ⟨⟨r2, hr2⟩, hsp, hct⟩ := matchGroup12_spec h
    refine ⟨⟨lit, r2, ?_⟩, hsp, hct⟩
    rw [dropLit_eq lit cs rest hdl, hr2, List.append_assoc]

theorem matchP3At_spec {cs d : List Char} (h : matchP3At cs = some d) :
    (∃ pre rest, cs = pre ++ d ++ rest) ∧ (∀ c ∈ d, pyIsSpace c = false) ∧
    d.count '/' = 1 := by
  unfold matchP3At at h
  by_cases h1 : cs.takeWhile Char.isDigit = []
  · rw [if_pos h1] at h
    exact absurd h (by simp)
  · rw [if_neg h1] at h
    cases hdrop1 : cs.dropWhile Char.isDigit with
    | nil => rw [hdrop1] at h; exact absurd h (by simp)
    | cons c1 rest1 =>
      rw [hdrop1] at h
      replace h : (if c1 = '.' then
          if rest1.takeWhile Char.isDigit = [] then none
          else
            match rest1.dropWhile Char.isDigit with
            | [] => none
            | c2 :: rest2 =>
              if c2 = '/' then
                if rest2.takeWhile notSlashSpace = [] then none
                else some (cs.takeWhile Char.isDigit ++ '.' ::
                  rest1.takeWhile Char.isDigit ++ '/' :: rest2.takeWhile notSlashSpace)
              else none
        else none) = some d := h
      by_cases hc1 : c1 = '.'
      · rw [if_pos hc1] at h
        subst hc1
        by_cases h2 : rest1.takeWhile Char.isDigit = []
        · rw [if_pos h2] at h
          exact absurd h (by simp)
        · rw [if_neg h2] at h
          cases hdrop2 : rest1.dropWhile Char.isDigit with
          | nil => rw [hdrop2] at h; exact absurd h (by simp)
          | cons c2 rest2 =>
            rw [hdrop2] at h
            replace h : (if c2 = '/' then
                if rest2.takeWhile notSlashSpace = [] then none
                else some (cs.takeWhile Char.isDigit ++ '.' ::
                  rest1.takeWhile Char.isDigit ++ '/' :: rest2.takeWhile notSlashSpace)
              else none) = some d := h
            by_cases hc2 : c2 = '/'
            · rw [if_pos hc2] at h
              subst hc2
              by_cases h3 : rest2.takeWhile notSlashSpace = []
              · rw [if_pos h3] at h
                exact absurd h (by simp)
              · rw [if_neg h3] at h
                injection h with hd
                subst hd
                refine ⟨⟨[], rest2.dropWhile notSlashSpace, ?_⟩, ?_, ?_⟩
                · rw [List.nil_append]
                  conv_lhs => rw [← List.takeWhile_append_dropWhile
                    (p := Char.isDigit) (l := cs)]
                  rw [hdrop1]
                  conv_lhs => rw [show rest1 = rest1.takeWhile Char.isDigit ++
                    rest1.dropWhile Char.isDigit from
                    (List.takeWhile_append_dropWhile _ _).symm]
                  rw [hdrop2]
                  conv_lhs => rw [show rest2 = rest2.takeWhile notSlashSpace ++
                    rest2.dropWhile notSlashSpace from
                    (List.takeWhile_append_dropWhile _ _).symm]
                  simp [List.append_assoc]
                · intro c hc
                  rcases List.mem_append.mp hc with hc12 | hc34
                  · rcases List.mem_append.mp hc12 with hc1 | hc2
                    · exact (isDigit_props (List.mem_takeWhile_imp hc1)).2
                    · rcases List.mem_cons.mp hc2 with rfl | hc3
                      · rfl
                      · exact (isDigit_props (List.mem_takeWhile_imp hc3)).2
                  · rcases List.mem_cons.mp hc34 with rfl | hc5
                    · rfl
                    · exact (notSlashSpace_spec (List.mem_takeWhile_imp hc5)).2
                · have ha : (cs.takeWhile Char.isDigit).count '/' = 0 :=
                    List.count_eq_zero.mpr
                      (fun hm => (isDigit_props (List.mem_takeWhile_imp hm)).1 rfl)
                  have hb : (rest1.takeWhile Char.isDigit).count '/' = 0 :=
                    List.count_eq_zero.mpr
                      (fun hm => (isDigit_props (List.mem_takeWhile_imp hm)).1 rfl)
                  have hc : (rest2.takeWhile notSlashSpace).count '/' = 0 :=
                    List.count_eq_zero.mpr
                      (fun hm => (notSlashSpace_spec (List.mem_takeWhile_imp hm)).1 rfl)
                  rw [List.count_append, List.count_append, List.count_cons,
                    List.count_cons, ha, hb, hc]
                  decide
            · rw [if_neg hc2] at h
              exact absurd h (by simp)
      · rw [if_neg hc1] at h
        exact absurd h (by simp)

theorem searchAt_spec (m : List Char → Option (List Char)) :
    ∀ (cs d : List Char), searchAt m cs = some d →
    ∃ pre tail, cs = pre ++ tail ∧ m tail = some d := by
  intro cs
  induction cs with
  | nil => intro d h; exact ⟨[], [], rfl, h⟩
  | cons c rest ih =>
    intro d h
    rw [searchAt] at h
    cases hm : m (c :: rest) with
    | some r =>
      rw [hm] at h
      injection h with hr
      exact ⟨[], c :: rest, rfl, by rw [hm, hr]⟩
    | none =>
      rw [hm] at h
      obtain ⟨pre, tail, hcs, hmt⟩ := ih d h
      exact ⟨c :: pre, tail, by rw [List.cons_append, hcs], hmt⟩

/-! ## Concrete pipeline outputs -/

/-- The entry the pipeline actually produces for the `rBook` record. -/
def bookOut : String :=
  "@article\x7bdoe2024test,\n  author = \x7bJohn Doe\x7d,\n  title = \x7bTest Article\x7d,\n  journal = \x7bTest Journal\x7d,\n  year = \x7b2024\x7d,\n  doi = \x7b10.1/x\x7d\n\x7d"

/-- The entry the pipeline actually produces for the `rNoDate` record: the
year slot holds the string `None` and so does the citation key. -/
def noDateOut : String :=
  "@article\x7bdoeNonetest,\n  author = \x7bJohn Doe\x7d,\n  title = \x7bTest Article\x7d,\n  journal = \x7bTest Journal\x7d,\n  year = \x7bNone\x7d,\n  doi = \x7b10.1/x\x7d\n\x7d"

/-- The section-8 example field mapping. -/
def ex8fields : List (String × Option String) :=
  [("author", some "John Doe"), ("title", some "Analysis of Something"),
   ("journal", some "Journal of Things"), ("year", some "2024"),
   ("volume", some "1"), ("number", some "2"), ("pages", some "34-45")]

/-- The section-8 example output text. -/
def ex8out : String :=
  "@article\x7bdoe2024analysis,\n  author = \x7bJohn Doe\x7d,\n  title = \x7bAnalysis of Something\x7d,\n  journal = \x7bJournal of Things\x7d,\n  year = \x7b2024\x7d,\n  volume = \x7b1\x7d,\n  number = \x7b2\x7d,\n  pages = \x7b34-45\x7d\n\x7d"

/-! ## Claim C1 -/

/-- C1, counterexample: the claim says a record whose sourceType is neither
journal-article nor proceedings-article yields a Generic fallback entry
tagged with the raw sourceType string; but for the type "book" the code
takes `type_mapping.get(..., 'article')` and emits an ordinary Article
entry — the output starts with `@article` and not with `@book`. -/
theorem C1_counterexample :
    generate_from_identifier fetchBook "10.1/x" = .ok bookOut ∧
    strStarts "@book" bookOut = false ∧ strStarts "@article\x7b" bookOut = true :=
  ⟨rfl, by decide, by decide⟩

/-- C1, amended: `journal-article` maps to an Article entry and
`proceedings-article` to the inproceedings branch; every other sourceType
(including absent) falls back to the `'article'` default of
`type_mapping.get`, so the selected entry type is always `article` or
`inproceedings` and the Generic `_create_entry` fallback is unreachable; on
the concrete "book" record the pipeline emits an `@article` entry. -/
theorem C1_amended :
    (∀ t, t ≠ some "journal-article" → t ≠ some "proceedings-article" →
      type_mapping_get t = "article") ∧
    (∀ t, type_mapping_get t = "article" ∨ type_mapping_get t = "inproceedings") ∧
    (type_mapping_get (some "journal-article") = "article" ∧
      type_mapping_get (some "proceedings-article") = "inproceedings") ∧
    generate_from_identifier fetchBook "10.1/x" = .ok bookOut := by
  refine ⟨?_, ?_, ⟨rfl, rfl⟩, rfl⟩
  · intro t h1 h2
    simp [type_mapping_get, h1, h2]
  · intro t
    unfold type_mapping_get
    split_ifs <;> simp

/-- C1, witness: the amended dispatch fact applied at sourceType "book". -/
theorem C1_witness : type_mapping_get (some "book") = "article" :=
  C1_amended.1 (some "book") (by decide) (by decide)

/-! ## Claim C2 -/

/-- C2: contrary to the claim, a fetched record whose sourceType is
`proceedings-article` makes `generate_from_identifier` raise: the call
`create_inproceeding(..., pages=pub_info.get['pages'], ...)` subscripts the
bound method `pub_info.get` and raises `TypeError` before any entry is
built.  This theorem evaluates the embedded code at the failing input. -/
theorem C2_typeerror_eval :
    generate_from_identifier fetchProc "10.1234/example.123" = .error .typeError :=
  rfl

/-! ## Claim C4 -/

/-- C4: contrary to the claim, when the record carries no
`published-print` date the mapper's year is not absent: the code computes
`str(None)`, giving the truthy string "None", which flows into the
citation key (`doeNonetest`) and is serialized as `year = \x7bNone\x7d`. -/
theorem C4_year_none_eval :
    (map_crossref rNoDate "10.1/x").map (fun p => p.year) = .ok "None" ∧
    generate_from_identifier fetchNoDate "10.1/x" = .ok noDateOut :=
  ⟨rfl, rfl⟩

/-! ## Claim C5 -/

/-- C5: contrary to the claim, an empty author list produces no dedicated
error and no placeholder: `''.split(',')[0].split()[-1]` raises a bare
`IndexError` during citation-key derivation. -/
theorem C5_index_error_eval :
    generate_from_identifier fetchNoAuth "10.1/x" = .error .indexError :=
  rfl

/-! ## Claim C3 -/

/-- C3, counterexample: with an empty field mapping and the citation key
"k,", the spec's rendering strips exactly the final comma+newline and
keeps the key's own comma, but `rstrip(",\n")` also eats the comma that
belongs to the key, so the two disagree. -/
theorem C3_counterexample :
    _create_entry "article" "k," [] = "@article\x7bk\n\x7d" ∧
    render_spec "article" "k," [] = "@article\x7bk,\n\x7d" ∧
    _create_entry "article" "k," [] ≠ render_spec "article" "k," [] :=
  ⟨rfl, rfl, by decide⟩

/-- C3, amended: the serializer emits the header, one `  name = \x7bvalue\x7d,`
line per non-absent/non-empty field in mapping order, strips the trailing
comma+newline and closes with `\n\x7d` — exactly as the claim states —
whenever at least one field is emitted, or the citation key does not end
in `,` or `\n` (otherwise `rstrip(",\n")` strips characters belonging to
the key).  On the section-8 Article example it produces exactly the
quoted text. -/
theorem C3_amended :
    (∀ t k fields, ((∃ kv ∈ fields, truthy kv.2 = true) ∨
        (∀ c, k.data.getLast? = some c → (c == ',' || c == '\n') = false)) →
      _create_entry t k fields = render_spec t k fields) ∧
    _create_entry "article" "doe2024analysis" ex8fields = ex8out :=
  ⟨fun t k fields h => create_entry_eq_spec t k fields h, rfl⟩

/-- C3, witness: the amended statement at a concrete one-field mapping. -/
theorem C3_witness :
    _create_entry "misc" "key1" [("note", some "v")] =
      render_spec "misc" "key1" [("note", some "v")] :=
  C3_amended.1 "misc" "key1" [("note", some "v")]
    (Or.inl ⟨("note", some "v"), by simp, by decide⟩)

/-! ## Claim C9 -/

/-- C9, counterexample: with an all-absent mapping the serializer does
strip the comma after the citation key, but for a key that itself ends in
a comma it strips more than that comma: the key "a," comes out as "a". -/
theorem C9_counterexample :
    _create_entry "article" "a," [] = "@article\x7ba\n\x7d" ∧
    _create_entry "article" "a," [] ≠ "@" ++ "article" ++ "\x7b" ++ "a," ++ "\n\x7d" :=
  ⟨rfl, by decide⟩

/-- C9, amended: when every field value is absent or empty and the
citation key does not end in `,` or `\n`, the serializer returns exactly
`@<entryTypeName>\x7b<citationKey>` followed by a newline and the closing
brace; being a total function, it never raises. -/
theorem C9_amended : ∀ (t k : String) (fields : List (String × Option String)),
    (∀ kv ∈ fields, truthy kv.2 = false) →
    (∀ c, k.data.getLast? = some c → (c == ',' || c == '\n') = false) →
    _create_entry t k fields = "@" ++ t ++ "\x7b" ++ k ++ "\n\x7d" := by
  intro t k fields hall hk
  rw [create_entry_eq_spec t k fields (Or.inr hk)]
  unfold render_spec
  rw [bodyT_all_falsy hall, str_append_empty]
  have hheader : ("@" ++ t ++ "\x7b" ++ k ++ ",\n").data =
      ('@' :: t.data ++ '\x7b' :: k.data) ++ [',', '\n'] := by
    simp [str_data_append, List.append_assoc]
  rw [hheader, dropLast2_append]
  apply String.ext
  simp [str_data_append, List.append_assoc]

/-- C9, witness: the amended statement at a concrete all-falsy mapping. -/
theorem C9_witness :
    _create_entry "misc" "key2" [("a", none), ("b", some "")] =
      "@" ++ "misc" ++ "\x7b" ++ "key2" ++ "\n\x7d" :=
  C9_amended "misc" "key2" [("a", none), ("b", some "")] (by decide) (by decide)

/-! ## Claim C6 -/

/-- C6: `extract_doi_from_url` tries the three patterns in fixed priority
order — `doi.org/<seg>/<seg>` first, then `doi:<doi>`, then a bare
`<digits>.<digits>/<seg>` anywhere — returning the first pattern's leftmost
match; and on the four section-8 inputs it returns `10.1234/example.123`
for the three DOI-bearing URLs and `none` for the invalid one. -/
theorem C6_extract_doi :
    (∀ (url : String) (d : List Char), searchAt matchP1At url.data = some d →
      extract_doi_from_url url = some (String.mk d)) ∧
    (∀ (url : String) (d : List Char), searchAt matchP1At url.data = none →
      searchAt matchP2At url.data = some d →
      extract_doi_from_url url = some (String.mk d)) ∧
    (∀ (url : String) (d : List Char), searchAt matchP1At url.data = none →
      searchAt matchP2At url.data = none →
      searchAt matchP3At url.data = some d →
      extract_doi_from_url url = some (String.mk d)) ∧
    (∀ (url : String), searchAt matchP1At url.data = none →
      searchAt matchP2At url.data = none →
      searchAt matchP3At url.data = none →
      extract_doi_from_url url = none) ∧
    extract_doi_from_url "https://doi.org/10.1234/example.123" =
      some "10.1234/example.123" ∧
    extract_doi_from_url "https://example.com/article/doi:10.1234/example.123" =
      some "10.1234/example.123" ∧
    extract_doi_from_url "https://example.com/10.1234/example.123" =
      some "10.1234/example.123" ∧
    extract_doi_from_url "https://invalid-url.com" = none := by
  refine ⟨?_, ?_, ?_, ?_, rfl, rfl, rfl, rfl⟩
  · intro url d h1
    simp [extract_doi_from_url, doi_patterns, tryPats, h1]
  · intro url d h1 h2
    simp [extract_doi_from_url, doi_patterns, tryPats, h1, h2]
  · intro url d h1 h2 h3
    simp [extract_doi_from_url, doi_patterns, tryPats, h1, h2, h3]
  · intro url h1 h2 h3
    simp [extract_doi_from_url, doi_patterns, tryPats, h1, h2, h3]

/-- C6, witness: the first-pattern clause applied at a concrete URL. -/
theorem C6_witness :
    extract_doi_from_url "doi.org/a/b" = some (String.mk ['a', '/', 'b']) :=
  C6_extract_doi.1 "doi.org/a/b" ['a', '/', 'b'] rfl

/-! ## Claim C8 -/

/-- C8: for every nonempty author list (whose names, being list elements,
contain no separating comma), formatting the comma-joined author string
yields the names joined by " and " with surrounding whitespace stripped
from each name. -/
theorem C8_format_authors : ∀ (names : List String), names ≠ [] →
    (∀ n ∈ names, ',' ∉ n.data) →
    _format_authors (pyJoinStr "," names) =
      pyJoinStr " and " (names.map (fun n => String.mk (pyStrip n.data))) := by
  intro names h0 h1
  unfold _format_authors
  have h2 : (pyJoinStr "," names).data = joinCL [','] (names.map String.data) :=
    pyJoinStr_data "," names h0
  have h3 : ∀ l ∈ names.map String.data, ',' ∉ l := by
    intro l hl
    rcases List.mem_map.mp hl with ⟨n, hn, rfl⟩
    exact h1 n hn
  have h4 : names.map String.data ≠ [] := by
    intro hmap
    exact h0 (List.map_eq_nil_iff.mp hmap)
  rw [h2, splitChars_joinCL ',' (names.map String.data) h4 h3, List.map_map]
  rfl

/-- C8, witness: the formatter at a concrete padded two-name list. -/
theorem C8_witness :
    _format_authors (pyJoinStr "," ["John Doe", " Jane Smith "]) =
      pyJoinStr " and "
        (["John Doe", " Jane Smith "].map (fun n => String.mk (pyStrip n.data))) :=
  C8_format_authors ["John Doe", " Jane Smith "] (by decide) (by decide)

/-! ## Claim C7 -/

/-- C7, counterexample: the claim's guard is "does not begin with an
http(s) scheme", but the code tests the bare four-character
text `http`: the identifier `http10.1/2` begins with no scheme, yet it is routed through URL
extraction and the fetch step receives `10.1/2`, not the identifier
unchanged. -/
theorem C7_counterexample :
    begins_http_scheme "http10.1/2" = false ∧
    resolve_identifier "http10.1/2" = .ok "10.1/2" ∧
    ("10.1/2" : String) ≠ "http10.1/2" :=
  ⟨by decide, rfl, by decide⟩

/-- C7, amended: an identifier that does not begin with the four-character
prefix `http` is passed to the fetch stage unchanged with no DOI-syntax
validation; and an identifier with that prefix from which no DOI can be
extracted fails with the `ValueError` immediately — uniformly in the fetch
oracle, so no fetch is attempted. -/
theorem C7_amended :
    (∀ (identifier : String) (fetchF : String → Except String RawRecord),
      strStarts "http" identifier = false →
      generate_from_identifier fetchF identifier = generate_with_doi fetchF identifier) ∧
    (∀ (identifier : String) (fetchF : String → Except String RawRecord),
      strStarts "http" identifier = true →
      extract_doi_from_url identifier = none →
      generate_from_identifier fetchF identifier =
        .error (.valueError "Could not extract DOI from URL")) := by
  constructor
  · intro identifier fetchF h
    simp [generate_from_identifier, resolve_identifier, h]
  · intro identifier fetchF h1 h2
    simp [generate_from_identifier, resolve_identifier, h1, h2]

/-- C7, witness: both amended clauses at concrete identifiers. -/
theorem C7_witness :
    generate_from_identifier fetchFail "10.5/abc" = generate_with_doi fetchFail "10.5/abc" ∧
    generate_from_identifier fetchFail "https://invalid-url.com" =
      .error (.valueError "Could not extract DOI from URL") :=
  ⟨C7_amended.1 "10.5/abc" fetchFail (by decide),
   C7_amended.2 "https://invalid-url.com" fetchFail (by decide) rfl⟩

/-! ## Claim C10 -/

/-- C10: whenever `extract_doi_from_url` returns a DOI, the returned
string is a contiguous substring of the input, contains no whitespace,
and contains exactly one `/`. -/
theorem C10_doi_shape (url d : String) (h : extract_doi_from_url url = some d) :
    (∃ pre post, url.data = pre ++ d.data ++ post) ∧
    (∀ c ∈ d.data, pyIsSpace c = false) ∧ d.data.count '/' = 1 := by
  unfold extract_doi_from_url at h
  cases ht : tryPats doi_patterns url.data with
  | none => rw [ht] at h; exact absurd h (by simp)
  | some m =>
    rw [ht] at h
    replace h : some (String.mk m) = some d := h
    injection h with h
    subst h
    rw [show doi_patterns = [matchP1At, matchP2At, matchP3At] from rfl,
      tryPats] at ht
    cases h1 : searchAt matchP1At url.data with
    | some m1 =>
      rw [h1] at ht
      injection ht with hm
      subst hm
      obtain ⟨pre, tail, hcs, hmt⟩ := searchAt_spec matchP1At url.data m1 h1
      obtain ⟨⟨p2, r2, htail⟩, hsp, hct⟩ := matchAfterLit_spec hmt
      refine ⟨⟨pre ++ p2, r2, ?_⟩, hsp, hct⟩
      rw [hcs, htail]
      simp [List.append_assoc]
    | none =>
      rw [h1, tryPats] at ht
      cases h2 : searchAt matchP2At url.data with
      | some m2 =>
        rw [h2] at ht
        injection ht with hm
        subst hm
        obtain ⟨pre, tail, hcs, hmt⟩ := searchAt_spec matchP2At url.data m2 h2
        obtain ⟨⟨p2, r2, htail⟩, hsp, hct⟩ := matchAfterLit_spec hmt
        refine ⟨⟨pre ++ p2, r2, ?_⟩, hsp, hct⟩
        rw [hcs, htail]
        simp [List.append_assoc]
      | none =>
        rw [h2, tryPats] at ht
        cases h3 : searchAt matchP3At url.data with
        | some m3 =>
          rw [h3] at ht
          injection ht with hm
          subst hm
          obtain ⟨pre, tail, hcs, hmt⟩ := searchAt_spec matchP3At url.data m3 h3
          obtain ⟨⟨p2, r2, htail⟩, hsp, hct⟩ := matchP3At_spec hmt
          refine ⟨⟨pre ++ p2, r2, ?_⟩, hsp, hct⟩
          rw [hcs, htail]
          simp [List.append_assoc]
        | none =>
          rw [h3, tryPats] at ht
          exact absurd ht (by simp)

/-- C10, witness: the invariant at a concrete extraction. -/
theorem C10_witness :
    (∃ pre post, ("https://doi.org/10.1234/example.123" : String).data =
      pre ++ ("10.1234/example.123" : String).data ++ post) ∧
    (∀ c ∈ ("10.1234/example.123" : String).data, pyIsSpace c = false) ∧
    ("10.1234/example.123" : String).data.count '/' = 1 :=
  C10_doi_shape "https://doi.org/10.1234/example.123" "10.1234/example.123" rfl
